import Mathlib

/-!
# Verification of the dynasty_hub extraction-and-persistence pipeline

Shallow embedding of `src/ktc_scrape_to_supabase.py` and
`src/backfill_transactions.py`.  External libraries (HTTP transport,
BeautifulSoup CSS selection, the Supabase client) are modelled at their
interface: a fetched document is represented by the candidate rows /
parsed JSON the library would hand back, and the durable store by an
explicit list of rows.  Every Python string operation actually used by
the scripts (`.replace`, `.strip`, `.lower`, `.rstrip("/")`,
`.split("/")[-1]`, `int(...)`) is embedded as an executable Lean
function on `List Char` so that all definitions reduce.
-/

namespace DynastyHub

/-! ## Python string primitives -/

/-- Python `s.strip()`: drop whitespace from both ends. -/
def pyStrip (s : String) : String :=
  String.mk (((s.data.dropWhile Char.isWhitespace).reverse.dropWhile Char.isWhitespace).reverse)

/-- Python `s.replace(",", "")` (single-character pattern, empty replacement). -/
def stripCommas (s : String) : String :=
  String.mk (s.data.filter (fun c => c ≠ ','))

/-- Python `s.replace(" ", "-")` (single-character pattern and replacement). -/
def spacesToDashes (s : String) : String :=
  String.mk (s.data.map (fun c => if c = ' ' then '-' else c))

/-- Python `s.lower()` (ASCII case folding, as used on slugs). -/
def pyLower (s : String) : String :=
  String.mk (s.data.map Char.toLower)

/-- Python `"/" in s`. -/
def hasSlash (s : String) : Bool :=
  s.data.contains '/'

/-- Python `s.rstrip("/")`: drop trailing slash characters. -/
def rstripSlashes (s : String) : String :=
  String.mk ((s.data.reverse.dropWhile (fun c => c = '/')).reverse)

/-- Python `s.split("/")[-1]`: the characters after the last `'/'`
(the whole string when no `'/'` occurs, matching `split`'s behaviour). -/
def lastSegment (s : String) : String :=
  String.mk ((s.data.reverse.takeWhile (fun c => c ≠ '/')).reverse)

/-- Digit run of Python `int(...)` after the first digit: decimal digits in
which a single underscore may stand between two digits (CPython grammar). -/
def pyDigitsAux : List Char → Nat → Option Nat
  | [], acc => some acc
  | '_' :: c :: cs, acc =>
      if c.isDigit then pyDigitsAux cs (acc * 10 + (c.toNat - 48)) else none
  | ['_'], _ => none
  | c :: cs, acc =>
      if c.isDigit then pyDigitsAux cs (acc * 10 + (c.toNat - 48)) else none

/-- Nonempty digit run: must start with a digit (no leading underscore). -/
def pyDigits : List Char → Option Nat
  | [] => none
  | c :: cs => if c.isDigit then pyDigitsAux cs (c.toNat - 48) else none

/-- Python `int(s)` on an already-stripped string: optional sign followed by
a digit run; `none` models the `ValueError` branch. -/
def pyInt (s : String) : Option Int :=
  match s.data with
  | '+' :: rest => (pyDigits rest).map (fun n => (n : Int))
  | '-' :: rest => (pyDigits rest).map (fun n => -(n : Int))
  | cs => (pyDigits cs).map (fun n => (n : Int))

/-! ## `_clean_int` (src/ktc_scrape_to_supabase.py lines 52-58) -/

/-- `_clean_int(text, default)`: `None`/`""` is falsy and yields the default;
otherwise `int(text.replace(",", "").strip())`, with `ValueError` caught and
mapped to the default. -/
def _clean_int (text : Option String) (default : Int) : Int :=
  match text with
  | none => default
  | some s =>
      if s = "" then default
      else
        match pyInt (pyStrip (stripCommas s)) with
        | some n => n
        | none => default

/-! ## Extractor (`parse_ktc_table`, src/ktc_scrape_to_supabase.py)

BeautifulSoup's CSS selection is external; a candidate row is therefore
modelled by the results the selector cascade returns on it: `nameEl`
collapses `row.select_one(".player-name a") or row.select_one("a[href*=...]")`
into the found anchor's stripped text and `href` attribute, and the other
fields hold the relevant element's `get_text` result when the element is
present. -/

structure RawRow where
  /-- Stripped text and optional `href` of the name anchor, when one of the
  two name selectors matched (`name_el`). -/
  nameEl : Option (String × Option String)
  /-- `get_text(strip=True)` of `.player-team, .team` when present. -/
  teamText : Option String
  /-- `get_text(strip=True)` of `p.position, .position` when present. -/
  posText : Option String
  /-- `get_text()` of `.value p, .player-value, [data-col='value']` when present. -/
  valueText : Option String
  /-- `get_text()` of `.rank-number p, .rank, [data-col='rank']` when present. -/
  rankText : Option String
  deriving Repr, DecidableEq

/-- `KTC_FORMAT` config constant. -/
def KTC_FORMAT : String := "superflex"

structure KtcRecord where
  ktc_player_id : String
  player_name : String
  position : String
  nfl_team : String
  format : String
  ktc_rank : Int
  ktc_value : Int
  as_of_date : String
  deriving Repr, DecidableEq

/-- Step 2 of the loop body: `nfl_team = team_el.get_text(strip=True) if team_el else "FA"`. -/
def rowTeam (row : RawRow) : String :=
  row.teamText.getD "FA"

/-- Step 3: position text (`"UNK"` when absent), then
`"".join(ch for ch in position_raw if ch.isalpha()) or position_raw`. -/
def rowPosition (row : RawRow) : String :=
  let position_raw := row.posText.getD "UNK"
  let alphas := String.mk (position_raw.data.filter Char.isAlpha)
  if alphas = "" then position_raw else alphas

/-- Step 6: `slug = href.rstrip("/").split("/")[-1] if "/" in href else None`;
`if not slug: slug = f"{player_name}_{position}".replace(" ", "-")`;
`ktc_player_id = slug.lower()`. -/
def deriveKtcPlayerId (player_name position href : String) : String :=
  let slug0 : Option String :=
    if hasSlash href then some (lastSegment (rstripSlashes href)) else none
  let slug :=
    match slug0 with
    | some s => if s = "" then spacesToDashes (player_name ++ "_" ++ position) else s
    | none => spacesToDashes (player_name ++ "_" ++ position)
  pyLower slug

/-- The dictionary appended for an accepted candidate row. -/
def rowRecord (today : String) (row : RawRow) (player_name : String)
    (hrefAttr : Option String) : KtcRecord :=
  { ktc_player_id := deriveKtcPlayerId player_name (rowPosition row) (hrefAttr.getD "")
    player_name := player_name
    position := rowPosition row
    nfl_team := rowTeam row
    format := KTC_FORMAT
    ktc_rank := _clean_int row.rankText 999
    ktc_value := _clean_int row.valueText 0
    as_of_date := today }

/-- Steps 1-6 of the loop body of `parse_ktc_table` on one candidate row:
`none` models `continue` (row skipped - no name anchor, empty name, or
non-positive value), `some` the appended record. -/
def processRow (today : String) (row : RawRow) : Option KtcRecord :=
  match row.nameEl with
  | none => none
  | some (player_name, hrefAttr) =>
    if player_name = "" then none
    else if _clean_int row.valueText 0 ≤ 0 then none
    else some (rowRecord today row player_name hrefAttr)

/-- `parse_ktc_table` over the candidate rows of a document: collect the rows
that survive the per-row gates, then raise (`Except.error`) when fewer than
50 rows were parsed (lines 143-152). -/
def parse_ktc_table (today : String) (docRows : List RawRow) :
    Except String (List KtcRecord) :=
  let results := docRows.filterMap (processRow today)
  if results.length < 50 then
    Except.error "parsed too few players - page structure may have changed."
  else
    Except.ok results

/-! ## Snapshot fetch and driver (src/ktc_scrape_to_supabase.py)

`requests.get` is external; the environment supplies the one response the
script would receive for `KTC_RANKINGS_URL`, as an HTTP status plus the
document (already abstracted to its candidate rows, see `RawRow`). -/

/-- `KTC_RANKINGS_URL` config constant. -/
def KTC_RANKINGS_URL : String := "https://keeptradecut.com/dynasty-rankings"

structure KtcEnv where
  /-- Status code of the single `requests.get(KTC_RANKINGS_URL, ...)`. -/
  status : Nat
  /-- Candidate rows of the fetched document's body. -/
  docRows : List RawRow

/-- `fetch_ktc_html` (lines 42-49): one blocking GET followed by
`resp.raise_for_status()`, which raises `HTTPError` for any 4xx/5xx status;
the raise propagates to the caller (there is no try/except around it). -/
def fetch_ktc_html (env : KtcEnv) : Except String (List RawRow) :=
  if 400 ≤ env.status then Except.error "HTTPError" else Except.ok env.docRows

/-- `main` of the scraper (lines 174-177): straight-line
`fetch -> parse -> upsert`, no loop.  The returned trace lists the URL of
every fetch the run performs, in order; the value is the record list handed
to `upsert_ktc_values` (or the propagated error). -/
def ktcMain (today : String) (env : KtcEnv) :
    List String × Except String (List KtcRecord) :=
  ([KTC_RANKINGS_URL],
    match fetch_ktc_html env with
    | Except.error e => Except.error e
    | Except.ok html =>
      match parse_ktc_table today html with
      | Except.error e => Except.error e
      | Except.ok rows => Except.ok rows)

/-! ## Durable-store model

Modelled from the spec: the Supabase client is out of scope and specified
only at its interface - `upsert(table, rows, conflict_keys)` with
"server-side last-write-wins semantics on the conflict keys".  A table is a
list of rows; upserting one row replaces the row whose conflict key
matches, or appends it when the key is new; a row list is applied left to
right, mirroring the single batched call's row order. -/

variable {Row Key : Type} [DecidableEq Key]

/-- Last-write-wins upsert of a single row keyed by `k`. -/
def upsertOne (k : Row → Key) (s : List Row) (r : Row) : List Row :=
  if s.any (fun x => k x = k r) then
    s.map (fun x => if k x = k r then r else x)
  else
    s ++ [r]

/-- One `upsert(rows, on_conflict=ks)` call applied to table state `s`. -/
def upsertAll (k : Row → Key) (s : List Row) (rs : List Row) : List Row :=
  rs.foldl (upsertOne k) s

/-- The row a key `κ` ends up mapping to after a left-to-right batch `rs` is
applied: the last element of `rs` whose key is `κ`, or the seed `d` when none
occurs.  Specification device for the upsert lemmas. -/
def lastWith (k : Row → Key) (κ : Key) (rs : List Row) (d : Row) : Row :=
  rs.foldl (fun acc r => if k r = κ then r else acc) d

/-- Natural key of a ranking row: `on_conflict=["ktc_player_id", "format",
"as_of_date"]` (src/ktc_scrape_to_supabase.py line 168). -/
def ktcKey (r : KtcRecord) : String × String × String :=
  (r.ktc_player_id, r.format, r.as_of_date)

/-- `upsert_ktc_values` (lines 159-171): empty input returns without touching
the store; otherwise one upsert call on the natural key. -/
def upsert_ktc_values (store : List KtcRecord) (rows : List KtcRecord) :
    List KtcRecord :=
  if rows = [] then store else upsertAll ktcKey store rows

/-! ## Historical backfill (src/backfill_transactions.py)

The Sleeper API is external; an environment supplies, per league id, the
decoded `/league/{id}` metadata (`none` models a non-200 status, which
`get_league_details` maps to `None`) and, per week, the raw HTTP result of
`/league/{id}/transactions/{week}`.  `datetime.fromtimestamp(...).isoformat()`
is an external injective formatting step, so the embedded record keeps the
millisecond timestamp it would format. -/

/-- `WEEKS_TO_FETCH` config constant. -/
def WEEKS_TO_FETCH : Nat := 18

/-- Decoded body of `/league/{id}`; `Option` fields model `dict.get`
returning `None` for absent keys. -/
structure LeagueMeta where
  season : Option String
  previous_league_id : Option String
  name : Option String
  deriving Repr, DecidableEq

/-- One decoded transaction object; `Option` fields model absent keys. -/
structure SleeperTx where
  txType : Option String
  status_updated : Option Nat
  created : Option Nat
  deriving Repr, DecidableEq

/-- Raw result of one transactions GET: status code and (when 200) the
decoded JSON array. -/
structure FetchResult where
  status : Nat
  body : List SleeperTx
  deriving Repr, DecidableEq

/-- `fetch_transactions` (lines 31-36): a non-200 status yields `[]`
instead of raising. -/
def fetch_transactions (r : FetchResult) : List SleeperTx :=
  if r.status ≠ 200 then [] else r.body

/-- `t.get("status_updated") or t.get("created") or int(time.time()*1000)`:
Python `or` also skips a present-but-zero (falsy) timestamp. -/
def tsFallback (su cr : Option Nat) (now : Nat) : Nat :=
  match su with
  | some v => if v ≠ 0 then v else match cr with
      | some w => if w ≠ 0 then w else now
      | none => now
  | none => match cr with
      | some w => if w ≠ 0 then w else now
      | none => now

/-- Row appended for one transaction inside `process_season`'s inner loop. -/
structure TxRecord where
  league_id : String
  season : Option String
  week : Nat
  txType : String
  /-- Millisecond timestamp that `executed_at`'s ISO string is formatted from. -/
  executed_at_ms : Nat
  data : SleeperTx
  deriving Repr, DecidableEq

/-- The dictionary built per transaction (lines 72-79). -/
def txRow (league_id : String) (season : Option String) (week : Nat)
    (now : Nat) (t : SleeperTx) : TxRecord :=
  { league_id := league_id
    season := season
    week := week
    txType := t.txType.getD "unknown"
    executed_at_ms := tsFallback t.status_updated t.created now
    data := t }

/-- `upsert_batch` (lines 38-43): empty input returns before the upsert is
attempted; otherwise the upsert runs inside `try`, and a raised exception
is caught and logged.  The transactions table's primary key is server-side
(`upsert` is called without `on_conflict`), so it is a parameter `pk`.
Result: (new table state, upsert attempted?, failure logged?). -/
def upsert_batch {K : Type} [DecidableEq K] (pk : TxRecord → K) (fails : Bool)
    (store : List TxRecord) (rows : List TxRecord) :
    List TxRecord × Bool × Bool :=
  if rows = [] then (store, false, false)
  else if fails then (store, true, true)
  else (upsertAll pk store rows, true, false)

/-- Environment of one `process_season` call. -/
structure SeasonEnv where
  /-- `get_league_details(league_id)`: `none` when that GET was non-200. -/
  meta : Option LeagueMeta
  /-- Raw HTTP result of the week-`w` transactions GET. -/
  weekResp : Nat → FetchResult
  /-- Whether the store raises on the week-`w` upsert call. -/
  dbFails : Nat → Bool
  /-- `int(time.time()*1000)` fallback timestamp. -/
  now : Nat

/-- Mutable state of `process_season`'s week loop: the table, the weeks
whose upsert call was issued, the weeks whose upsert failed (logged), and
`total_season_tx`. -/
structure LoopState where
  store : List TxRecord
  attempts : List Nat
  failures : List Nat
  total : Nat
  deriving Repr, DecidableEq

/-- Body of `for week in range(1, WEEKS_TO_FETCH + 1)` (lines 58-87). -/
def seasonStep {K : Type} [DecidableEq K] (pk : TxRecord → K) (env : SeasonEnv)
    (league_id : String) (season : Option String) (st : LoopState)
    (week : Nat) : LoopState :=
  let txs := fetch_transactions (env.weekResp week)
  if txs = [] then st
  else
    let rows := txs.map (txRow league_id season week env.now)
    if rows = [] then st
    else
      let out := upsert_batch pk (env.dbFails week) st.store rows
      { store := out.1
        attempts := st.attempts ++ [week]
        failures := st.failures ++ (if out.2.2 then [week] else [])
        total := st.total + rows.length }

/-- Result of one `process_season` call (`none` = early `return None`). -/
structure SeasonResult where
  prevId : Option String
  store : List TxRecord
  attempts : List Nat
  failures : List Nat
  total : Nat
  deriving Repr, DecidableEq

/-- `process_season` (lines 45-90): bail out when the league metadata fetch
failed, else run the bounded week loop and return
`meta.get("previous_league_id")`. -/
def process_season {K : Type} [DecidableEq K] (pk : TxRecord → K)
    (env : SeasonEnv) (store0 : List TxRecord) (league_id : String) :
    Option SeasonResult :=
  match env.meta with
  | none => none
  | some meta =>
    let finalSt := (List.range' 1 WEEKS_TO_FETCH).foldl
      (seasonStep pk env league_id meta.season)
      { store := store0, attempts := [], failures := [], total := 0 }
    some
      { prevId := meta.previous_league_id
        store := finalSt.store
        attempts := finalSt.attempts
        failures := finalSt.failures
        total := finalSt.total }

/-- Environment of the whole backfill run. -/
structure BackfillEnv where
  leagues : String → Option LeagueMeta
  weekResp : String → Nat → FetchResult
  dbFails : String → Nat → Bool
  now : Nat

/-- The `SeasonEnv` that `process_season(current_id)` sees. -/
def seasonEnvFor (benv : BackfillEnv) (league_id : String) : SeasonEnv :=
  { meta := benv.leagues league_id
    weekResp := benv.weekResp league_id
    dbFails := benv.dbFails league_id
    now := benv.now }

/-- `main` of the backfill (lines 92-107): `while current_id:` visits the
current id, runs `process_season`, and continues with the returned
`previous_league_id` iff it is truthy and not the sentinel `"0"`.  `fuel`
bounds the unfolding of the `while` loop; the theorems show the result is
fuel-independent once the predecessor chain is finite.  Returns the visited
league ids in order together with the final table state. -/
def mainWalk {K : Type} [DecidableEq K] (pk : TxRecord → K)
    (benv : BackfillEnv) : Nat → String → List TxRecord →
    List String × List TxRecord
  | 0, _, store => ([], store)
  | fuel + 1, cur, store =>
    if cur = "" then ([], store)
    else
      match process_season pk (seasonEnvFor benv cur) store cur with
      | none => ([cur], store)
      | some res =>
        match res.prevId with
        | none => ([cur], res.store)
        | some p =>
          if p = "0" ∨ p = "" then ([cur], res.store)
          else
            let rest := mainWalk pk benv fuel p res.store
            (cur :: rest.1, rest.2)

/-- Replace the raw result of one week's transactions GET. -/
def SeasonEnv.setWeek (env : SeasonEnv) (w : Nat) (fr : FetchResult) : SeasonEnv :=
  { env with weekResp := fun w2 => if w2 = w then fr else env.weekResp w2 }

/-! ## Concrete scenario data used by witnesses and counterexamples -/

/-- Transactions-table key used where a concrete key choice is needed
(the table's primary key lives server-side). -/
def pkId : TxRecord → TxRecord := fun r => r

/-- A three-season predecessor chain `A -> B -> C -> (none)`, with every
transactions GET answering 404 and a store that never fails. -/
def envABC : BackfillEnv :=
  { leagues := fun lid =>
      if lid = "A" then
        some { season := some "2024", previous_league_id := some "B", name := some "League" }
      else if lid = "B" then
        some { season := some "2023", previous_league_id := some "C", name := some "League" }
      else if lid = "C" then
        some { season := some "2022", previous_league_id := none, name := some "League" }
      else none
    weekResp := fun _ _ => { status := 404, body := [] }
    dbFails := fun _ _ => false
    now := 0 }

/-- Chain-position measure for `envABC`: each predecessor reference points
to a strictly earlier season. -/
def muABC : String → Nat :=
  fun s => if s = "A" then 2 else if s = "B" then 1 else 0

/-- A candidate row whose rank cell reads `"-1"` but which passes every
acceptance gate. -/
def negRankRow : RawRow :=
  { nameEl := some ("Foo Bar", some "nopath")
    teamText := none
    posText := none
    valueText := some "5"
    rankText := some "-1" }

/-- The record `parse_ktc_table` emits for `negRankRow`. -/
def negRankRec : KtcRecord :=
  { ktc_player_id := "foo-bar_unk"
    player_name := "Foo Bar"
    position := "UNK"
    nfl_team := "FA"
    format := "superflex"
    ktc_rank := -1
    ktc_value := 5
    as_of_date := "2025-01-01" }

/-- An accepted candidate row with no rank element at all. -/
def noRankRow : RawRow :=
  { nameEl := some ("Justin Jefferson", some "/dynasty-rankings/players/justin-jefferson-1")
    teamText := some "MIN"
    posText := some "WR1"
    valueText := some " 9,998 "
    rankText := none }

/-- The record `parse_ktc_table` emits for `noRankRow`. -/
def noRankRec : KtcRecord :=
  { ktc_player_id := "justin-jefferson-1"
    player_name := "Justin Jefferson"
    position := "WR"
    nfl_team := "MIN"
    format := "superflex"
    ktc_rank := 999
    ktc_value := 9998
    as_of_date := "2025-01-01" }

/-- A week environment where week 3 fails with a 500 and the other weeks
return one transaction each. -/
def week3FailsEnv : SeasonEnv :=
  { meta := some { season := some "2024", previous_league_id := some "0", name := some "League" }
    weekResp := fun w =>
      if w = 3 then { status := 500, body := [] }
      else { status := 200,
             body := [{ txType := some "trade", status_updated := some 1700000000000,
                        created := none }] }
    dbFails := fun _ => false
    now := 0 }

/-- What `process_season` returns on `seasonEnvFor envABC "A"`: every week
404s, so nothing is attempted and the walk continues to `"B"`. -/
def emptySeasonRes : SeasonResult :=
  { prevId := some "B", store := [], attempts := [], failures := [], total := 0 }

/-- An accepted candidate row whose value cell normalizes to `0`. -/
def zeroValueRow : RawRow :=
  { nameEl := some ("Zero Guy", some "/dynasty-rankings/players/zero-guy-1")
    teamText := some "FA"
    posText := some "QB2"
    valueText := some "0"
    rankText := some "12" }

/-! # Theorems -/

/-- Unfolding lemma: a candidate without a name anchor is skipped. -/
theorem processRow_name_none (today : String) (row : RawRow)
    (h : row.nameEl = none) : processRow today row = none := by
  unfold processRow
  rw [h]

/-- Unfolding lemma: `processRow` on a candidate whose name anchor matched. -/
theorem processRow_of_name (today : String) (row : RawRow) (pn : String)
    (ha : Option String) (h : row.nameEl = some (pn, ha)) :
    processRow today row =
      (if pn = "" then none
       else if _clean_int row.valueText 0 ≤ 0 then none
       else some (rowRecord today row pn ha)) := by
  unfold processRow
  rw [h]

/-- C1: `parse_ktc_table` raises the document-level quality error exactly
when fewer than 50 rows were parsed; at or above 50 it returns the parsed
rows unchanged. -/
theorem parse_ktc_table_plausibility_gate (today : String) (docRows : List RawRow) :
    ((∃ e, parse_ktc_table today docRows = Except.error e) ↔
      (docRows.filterMap (processRow today)).length < 50)
    ∧ (∀ res, parse_ktc_table today docRows = Except.ok res →
        res = docRows.filterMap (processRow today) ∧ 50 ≤ res.length) := by
  by_cases h : (docRows.filterMap (processRow today)).length < 50
  · refine ⟨⟨fun _ => h,
      fun _ => ⟨"parsed too few players - page structure may have changed.",
        by simp [parse_ktc_table, h]⟩⟩, ?_⟩
    intro res hres
    simp [parse_ktc_table, h] at hres
  · refine ⟨⟨?_, fun hlt => absurd hlt h⟩, ?_⟩
    · rintro ⟨e, he⟩
      simp [parse_ktc_table, h] at he
    · intro res hres
      simp [parse_ktc_table, h] at hres
      subst hres
      exact ⟨rfl, by omega⟩

/-- C1 witness: an empty document yields 0 rows and the gate raises. -/
theorem parse_ktc_table_plausibility_gate_witness :
    ∃ e, parse_ktc_table "2025-01-01" [] = Except.error e :=
  (parse_ktc_table_plausibility_gate "2025-01-01" []).1.mpr (by decide)

/-- C4 counterexample: a row whose rank cell reads `"-1"` is accepted and
stored with the negative rank `-1`, so "rank is non-negative after
normalization" fails on the code. -/
theorem negative_rank_emitted :
    processRow "2025-01-01" negRankRow = some negRankRec ∧ negRankRec.ktc_rank < 0 :=
  ⟨by decide, by decide⟩

/-- C4 (amended): normalization strips thousands separators; a row whose
value text is empty, non-numeric, or non-positive is dropped rather than
emitted with value zero, so every emitted record has strictly positive
value.  (Rank, by contrast, is not guaranteed non-negative: see the
counterexample.) -/
theorem clean_int_and_value_gate (today : String) (row : RawRow) :
    _clean_int (some "1,234") 0 = 1234
    ∧ (∀ rec, processRow today row = some rec → 0 < rec.ktc_value)
    ∧ (_clean_int row.valueText 0 ≤ 0 → processRow today row = none) := by
  refine ⟨by decide, ?_, ?_⟩
  · intro rec h
    cases hne : row.nameEl with
    | none => rw [processRow_name_none today row hne] at h; cases h
    | some v =>
      obtain ⟨pn, ha⟩ := v
      rw [processRow_of_name today row pn ha hne] at h
      by_cases hpn : pn = ""
      · rw [if_pos hpn] at h; cases h
      · rw [if_neg hpn] at h
        by_cases hv : _clean_int row.valueText 0 ≤ 0
        · rw [if_pos hv] at h; cases h
        · rw [if_neg hv] at h
          have hrec : rowRecord today row pn ha = rec := by
            injection h
          rw [← hrec]
          show 0 < _clean_int row.valueText 0
          omega
  · intro hv
    cases hne : row.nameEl with
    | none => exact processRow_name_none today row hne
    | some v =>
      obtain ⟨pn, ha⟩ := v
      rw [processRow_of_name today row pn ha hne]
      by_cases hpn : pn = ""
      · rw [if_pos hpn]
      · rw [if_neg hpn, if_pos hv]

/-- C4 witness: the separator example, a concrete accepted record with
positive value, and a concrete zero-value row that is dropped. -/
theorem clean_int_and_value_gate_witness :
    _clean_int (some "1,234") 0 = 1234
    ∧ 0 < negRankRec.ktc_value
    ∧ processRow "2025-01-01" zeroValueRow = none :=
  ⟨(clean_int_and_value_gate "2025-01-01" zeroValueRow).1,
   (clean_int_and_value_gate "2025-01-01" negRankRow).2.1 negRankRec (by decide),
   (clean_int_and_value_gate "2025-01-01" zeroValueRow).2.2 (by decide)⟩

/-- C9: an accepted row's identifier comes from `deriveKtcPlayerId`; with a
slash in the href and a nonempty final segment it is that segment
lower-cased (hence equal across documents sharing the link, whatever the
name/position text); with no slash it is the lower-cased
`name_position` fallback with spaces turned into dashes. -/
theorem entity_id_derivation :
    (∀ today row rec player_name hrefAttr,
        processRow today row = some rec → row.nameEl = some (player_name, hrefAttr) →
        rec.ktc_player_id =
          deriveKtcPlayerId player_name (rowPosition row) (hrefAttr.getD ""))
    ∧ (∀ player_name position href, hasSlash href = true →
        lastSegment (rstripSlashes href) ≠ "" →
        deriveKtcPlayerId player_name position href =
          pyLower (lastSegment (rstripSlashes href)))
    ∧ (∀ player_name position href, hasSlash href = false →
        deriveKtcPlayerId player_name position href =
          pyLower (spacesToDashes (player_name ++ "_" ++ position)))
    ∧ (∀ pn1 pos1 pn2 pos2 href, hasSlash href = true →
        lastSegment (rstripSlashes href) ≠ "" →
        deriveKtcPlayerId pn1 pos1 href = deriveKtcPlayerId pn2 pos2 href) := by
  have hseg : ∀ player_name position href, hasSlash href = true →
      lastSegment (rstripSlashes href) ≠ "" →
      deriveKtcPlayerId player_name position href =
        pyLower (lastSegment (rstripSlashes href)) := by
    intro pn pos href h1 h2
    simp [deriveKtcPlayerId, h1, h2]
  refine ⟨?_, hseg, ?_, ?_⟩
  · intro today row rec pn ha h hne
    rw [processRow_of_name today row pn ha hne] at h
    by_cases hpn : pn = ""
    · rw [if_pos hpn] at h; cases h
    · rw [if_neg hpn] at h
      by_cases hv : _clean_int row.valueText 0 ≤ 0
      · rw [if_pos hv] at h; cases h
      · rw [if_neg hv] at h
        have hrec : rowRecord today row pn ha = rec := by injection h
        rw [← hrec]
        rfl
  · intro pn pos href h1
    simp [deriveKtcPlayerId, h1]
  · intro pn1 pos1 pn2 pos2 href h1 h2
    rw [hseg pn1 pos1 href h1 h2, hseg pn2 pos2 href h1 h2]

/-- C9 witness: two rows with different names but the same player link get
the same identifier, and a pathless href falls back to the synthesized id. -/
theorem entity_id_derivation_witness :
    deriveKtcPlayerId "J. Jefferson" "WR" "/dynasty-rankings/players/justin-jefferson-1"
      = deriveKtcPlayerId "Justin Jefferson" "WR" "/dynasty-rankings/players/justin-jefferson-1"
    ∧ deriveKtcPlayerId "Foo Bar" "UNK" "nopath" = "foo-bar_unk"
    ∧ noRankRec.ktc_player_id =
        deriveKtcPlayerId "Justin Jefferson" (rowPosition noRankRow)
          "/dynasty-rankings/players/justin-jefferson-1" :=
  ⟨entity_id_derivation.2.2.2 "J. Jefferson" "WR" "Justin Jefferson" "WR"
      "/dynasty-rankings/players/justin-jefferson-1" (by decide) (by decide),
   by
    rw [entity_id_derivation.2.2.1 "Foo Bar" "UNK" "nopath" (by decide)]
    decide,
   by
    rw [entity_id_derivation.1 "2025-01-01" noRankRow noRankRec "Justin Jefferson"
      (some "/dynasty-rankings/players/justin-jefferson-1") (by decide) (by decide)]
    rfl⟩

/-- C10: a missing, empty, or non-numeric rank never drops the row - the
acceptance gates ignore the rank cell entirely - and the emitted record's
rank is the sentinel 999. -/
theorem rank_sentinel_999 (today : String) (row : RawRow) :
    (∀ rec, processRow today row = some rec →
      (row.rankText = none ∨ row.rankText = some "" ∨
        pyInt (pyStrip (stripCommas (row.rankText.getD ""))) = none) →
      rec.ktc_rank = 999)
    ∧ (processRow today { row with rankText := none }).isSome =
        (processRow today row).isSome := by
  constructor
  · intro rec h hr
    have hclean : _clean_int row.rankText 999 = 999 := by
      cases hrt : row.rankText with
      | none => rfl
      | some s =>
        rcases hr with h1 | h2 | h3
        · rw [hrt] at h1; cases h1
        · rw [hrt] at h2
          have : s = "" := by injection h2
          simp [_clean_int, this]
        · rw [hrt] at h3
          simp only [Option.getD] at h3
          by_cases hs : s = ""
          · simp [_clean_int, hs]
          · simp [_clean_int, hs, h3]
    cases hne : row.nameEl with
    | none => rw [processRow_name_none today row hne] at h; cases h
    | some v =>
      obtain ⟨pn, ha⟩ := v
      rw [processRow_of_name today row pn ha hne] at h
      by_cases hpn : pn = ""
      · rw [if_pos hpn] at h; cases h
      · rw [if_neg hpn] at h
        by_cases hv : _clean_int row.valueText 0 ≤ 0
        · rw [if_pos hv] at h; cases h
        · rw [if_neg hv] at h
          have hrec : rowRecord today row pn ha = rec := by injection h
          rw [← hrec]
          show _clean_int row.rankText 999 = 999
          exact hclean
  · cases hne : row.nameEl with
    | none =>
      rw [processRow_name_none today _ rfl, processRow_name_none today row hne]
    | some v =>
      obtain ⟨pn, ha⟩ := v
      rw [processRow_of_name today _ pn ha rfl,
        processRow_of_name today row pn ha hne]
      by_cases hpn : pn = ""
      · simp [hpn]
      · by_cases hv : _clean_int row.valueText 0 ≤ 0
        · simp [hpn, hv]
        · simp [hpn, hv]

/-- C10 witness: the concrete row with no rank element is emitted with
rank 999. -/
theorem rank_sentinel_999_witness : noRankRec.ktc_rank = 999 :=
  (rank_sentinel_999 "2025-01-01" noRankRow).1 noRankRec (by decide) (by decide)

/-- C8 counterexample: a 500 response makes `fetch_ktc_html` raise
(`raise_for_status`), and the error propagates out of `main` - a transport
failure is not absorbed as "no more data". -/
theorem fetch_error_propagates :
    fetch_ktc_html { status := 500, docRows := [] } = Except.error "HTTPError"
    ∧ (ktcMain "2025-01-01" { status := 500, docRows := [] }).2
        = Except.error "HTTPError" :=
  ⟨rfl, rfl⟩

/-- C8 (amended): for the snapshot HTML fetch a non-success (4xx/5xx)
status raises `HTTPError`, which nothing catches, so the whole run fails;
a success status hands the body to the parser. -/
theorem fetch_raise_for_status (today : String) (env : KtcEnv) :
    (400 ≤ env.status →
      fetch_ktc_html env = Except.error "HTTPError"
      ∧ (ktcMain today env).2 = Except.error "HTTPError")
    ∧ (env.status < 400 → fetch_ktc_html env = Except.ok env.docRows) := by
  constructor
  · intro h
    have hf : fetch_ktc_html env = Except.error "HTTPError" := by
      simp [fetch_ktc_html, h]
    refine ⟨hf, ?_⟩
    simp [ktcMain, hf]
  · intro h
    simp [fetch_ktc_html]
    omega

/-- C8 witness: the amended behaviour at a concrete 500 response. -/
theorem fetch_raise_for_status_witness :
    fetch_ktc_html { status := 500, docRows := [] } = Except.error "HTTPError"
    ∧ fetch_ktc_html { status := 200, docRows := [noRankRow] }
        = Except.ok [noRankRow] :=
  ⟨((fetch_raise_for_status "2025-01-01" { status := 500, docRows := [] }).1
      (by decide)).1,
   (fetch_raise_for_status "2025-01-01" { status := 200, docRows := [noRankRow] }).2
      (by decide)⟩

/-- C6 counterexample: on any run - in particular one the claim's
"3 non-empty pages then an empty page" scenario would need - the snapshot
driver performs exactly one fetch, never four. -/
theorem snapshot_single_fetch :
    (ktcMain "2025-01-01" { status := 200, docRows := [] }).1.length = 1
    ∧ (ktcMain "2025-01-01" { status := 200, docRows := [] }).1.length ≠ 4 :=
  ⟨rfl, by decide⟩

/-- C6 (amended): the ranking-snapshot driver is straight-line: it fetches
the fixed rankings URL exactly once; there is no page index, no
`MAX_PAGES` bound and no empty-page early stop in the code. -/
theorem snapshot_walker_single_fetch (today : String) (env : KtcEnv) :
    (ktcMain today env).1 = [KTC_RANKINGS_URL]
    ∧ (ktcMain today env).1.length = 1 :=
  ⟨rfl, rfl⟩

/-- The week-loop body only looks at the environment through the fetched
transaction list, the failure oracle and the clock. -/
theorem seasonStep_congr {K : Type} [DecidableEq K] (pk : TxRecord → K)
    (env1 env2 : SeasonEnv) (lid : String) (season : Option String)
    (st : LoopState) (w : Nat)
    (h1 : fetch_transactions (env1.weekResp w) = fetch_transactions (env2.weekResp w))
    (h2 : env1.dbFails w = env2.dbFails w) (h3 : env1.now = env2.now) :
    seasonStep pk env1 lid season st w = seasonStep pk env2 lid season st w := by
  unfold seasonStep
  rw [h1, h2, h3]

/-- `process_season` only looks at the environment through the league
metadata, the fetched per-week transaction lists, the failure oracle and
the clock. -/
theorem process_season_congr {K : Type} [DecidableEq K] (pk : TxRecord → K)
    (env1 env2 : SeasonEnv) (store0 : List TxRecord) (lid : String)
    (hm : env1.meta = env2.meta)
    (hw : ∀ w, fetch_transactions (env1.weekResp w) =
      fetch_transactions (env2.weekResp w))
    (hd : ∀ w, env1.dbFails w = env2.dbFails w) (hn : env1.now = env2.now) :
    process_season pk env1 store0 lid = process_season pk env2 store0 lid := by
  unfold process_season
  rw [hm]
  cases env2.meta with
  | none => rfl
  | some meta =>
    dsimp only
    have hfold : (List.range' 1 WEEKS_TO_FETCH).foldl
        (seasonStep pk env1 lid meta.season)
        { store := store0, attempts := [], failures := [], total := 0 } =
      (List.range' 1 WEEKS_TO_FETCH).foldl
        (seasonStep pk env2 lid meta.season)
        { store := store0, attempts := [], failures := [], total := 0 } :=
      List.foldl_ext _ _ _
        (fun st w _ => seasonStep_congr pk env1 env2 lid meta.season st w
          (hw w) (hd w) hn)
    rw [hfold]

/-- C7: a non-200 transactions response decodes to the empty list, and a
season processed with one failed week is indistinguishable from the same
season with that week genuinely empty - the remaining weeks proceed
unchanged and the walk is never aborted. -/
theorem failed_week_yields_empty {K : Type} [DecidableEq K] (pk : TxRecord → K)
    (env : SeasonEnv) (store0 : List TxRecord) (lid : String) (w : Nat)
    (hw : (env.weekResp w).status ≠ 200) :
    fetch_transactions (env.weekResp w) = []
    ∧ process_season pk env store0 lid =
        process_season pk (env.setWeek w { status := 200, body := [] }) store0 lid := by
  have hfe : fetch_transactions (env.weekResp w) = [] := by
    simp [fetch_transactions, hw]
  refine ⟨hfe, process_season_congr pk env _ store0 lid rfl ?_ (fun _ => rfl) rfl⟩
  intro w2
  show fetch_transactions (env.weekResp w2) =
    fetch_transactions (if w2 = w then { status := 200, body := [] } else env.weekResp w2)
  by_cases hww : w2 = w
  · subst hww
    rw [if_pos rfl, hfe]
    rfl
  · rw [if_neg hww]

/-- C7 witness: the concrete season where week 3 answers 500. -/
theorem failed_week_yields_empty_witness :
    fetch_transactions (week3FailsEnv.weekResp 3) = []
    ∧ process_season pkId week3FailsEnv [] "L" =
        process_season pkId (week3FailsEnv.setWeek 3 { status := 200, body := [] })
          [] "L" :=
  failed_week_yields_empty pkId week3FailsEnv [] "L" 3 (by decide)

/-- Attempt bookkeeping of a single week: the upsert call is issued exactly
when the fetched transaction list is nonempty. -/
theorem seasonStep_attempts {K : Type} [DecidableEq K] (pk : TxRecord → K)
    (env : SeasonEnv) (lid : String) (season : Option String)
    (st : LoopState) (w : Nat) :
    (seasonStep pk env lid season st w).attempts =
      st.attempts ++
        (if fetch_transactions (env.weekResp w) = [] then [] else [w]) := by
  unfold seasonStep
  by_cases hw : fetch_transactions (env.weekResp w) = []
  · simp [hw]
  · have hrows : (fetch_transactions (env.weekResp w)).map
        (txRow lid season w env.now) ≠ [] := by
      simp [hw]
    simp [hw, hrows]

/-- Attempt bookkeeping of the whole week loop. -/
theorem seasonLoop_attempts {K : Type} [DecidableEq K] (pk : TxRecord → K)
    (env : SeasonEnv) (lid : String) (season : Option String) :
    ∀ (ws : List Nat) (st : LoopState),
      ((ws.foldl (seasonStep pk env lid season) st).attempts) =
        st.attempts ++
          ws.filter (fun w => !(fetch_transactions (env.weekResp w)).isEmpty) := by
  intro ws
  induction ws with
  | nil => intro st; simp
  | cons w ws ih =>
    intro st
    rw [List.foldl_cons, ih, seasonStep_attempts, List.filter_cons]
    by_cases hw : fetch_transactions (env.weekResp w) = []
    · simp [hw]
    · simp [hw, List.isEmpty_iff]

/-- `process_season` fails exactly when the league-metadata fetch did. -/
theorem process_season_eq_none_iff {K : Type} [DecidableEq K] (pk : TxRecord → K)
    (env : SeasonEnv) (store0 : List TxRecord) (lid : String) :
    process_season pk env store0 lid = none ↔ env.meta = none := by
  unfold process_season
  cases env.meta <;> simp

/-- The predecessor reference returned by `process_season` is read straight
off the league metadata. -/
theorem process_season_prevId {K : Type} [DecidableEq K] (pk : TxRecord → K)
    (env : SeasonEnv) (store0 : List TxRecord) (lid : String)
    (res : SeasonResult) (meta : LeagueMeta)
    (h : process_season pk env store0 lid = some res)
    (hm : env.meta = some meta) :
    res.prevId = meta.previous_league_id := by
  unfold process_season at h
  rw [hm] at h
  have := Option.some.inj h
  rw [← this]

/-- The sequence of visited league ids depends only on the league-metadata
map: neither the store contents nor the failure oracle can change it. -/
theorem mainWalk_visits_of_leagues_eq {K K2 : Type} [DecidableEq K]
    [DecidableEq K2] (pk : TxRecord → K) (pk2 : TxRecord → K2)
    (benv benv2 : BackfillEnv) (hL : benv2.leagues = benv.leagues) :
    ∀ (fuel : Nat) (start : String) (store1 store2 : List TxRecord),
      (mainWalk pk2 benv2 fuel start store1).1 =
        (mainWalk pk benv fuel start store2).1 := by
  intro fuel
  induction fuel with
  | zero => intro start s1 s2; rfl
  | succ n ih =>
    intro start s1 s2
    simp only [mainWalk]
    by_cases hc : start = ""
    · simp [hc]
    · rw [if_neg hc, if_neg hc]
      cases h1 : process_season pk2 (seasonEnvFor benv2 start) s1 start with
      | none =>
        have hmeta : benv2.leagues start = none :=
          (process_season_eq_none_iff pk2 (seasonEnvFor benv2 start) s1 start).mp h1
        have h2 : process_season pk (seasonEnvFor benv start) s2 start = none := by
          rw [process_season_eq_none_iff]
          show benv.leagues start = none
          rw [← hL]
          exact hmeta
        rw [h2]
      | some res1 =>
        cases h2 : process_season pk (seasonEnvFor benv start) s2 start with
        | none =>
          have hmeta : benv.leagues start = none :=
            (process_season_eq_none_iff pk (seasonEnvFor benv start) s2 start).mp h2
          have : process_season pk2 (seasonEnvFor benv2 start) s1 start = none := by
            rw [process_season_eq_none_iff]
            show benv2.leagues start = none
            rw [hL]
            exact hmeta
          rw [this] at h1
          cases h1
        | some res2 =>
          have hmeta : ∃ meta, benv.leagues start = some meta := by
            cases hm : benv.leagues start with
            | none =>
              have : process_season pk (seasonEnvFor benv start) s2 start = none := by
                rw [process_season_eq_none_iff]
                exact hm
              rw [this] at h2
              cases h2
            | some m => exact ⟨m, rfl⟩
          obtain ⟨meta, hm⟩ := hmeta
          have hm2 : benv2.leagues start = some meta := by rw [hL]; exact hm
          have hp1 : res1.prevId = meta.previous_league_id :=
            process_season_prevId pk2 (seasonEnvFor benv2 start) s1 start res1 meta h1 hm2
          have hp2 : res2.prevId = meta.previous_league_id :=
            process_season_prevId pk (seasonEnvFor benv start) s2 start res2 meta h2 hm
          dsimp only
          rw [hp1, hp2]
          cases meta.previous_league_id with
          | none => rfl
          | some p =>
            by_cases hstop : p = "0" ∨ p = ""
            · simp [hstop]
            · simp only [if_neg hstop]
              show start :: (mainWalk pk2 benv2 n p res1.store).1 =
                start :: (mainWalk pk benv n p res2.store).1
              rw [ih p res1.store res2.store]

/-- C5: the ranking persister and the batch persister are no-ops (not
errors) on empty input; the batch upsert inside `process_season` is
attempted for exactly the weeks with data, independent of which upserts
fail (a failure is caught and logged, so batch `i` failing never prevents
batch `i+1..n`); and the failure oracle can never change the walk. -/
theorem batch_persister_isolation :
    (∀ store : List KtcRecord, upsert_ktc_values store [] = store)
    ∧ (∀ {K : Type} [DecidableEq K] (pk : TxRecord → K) (fails : Bool)
        (store : List TxRecord), upsert_batch pk fails store [] = (store, false, false))
    ∧ (∀ {K : Type} [DecidableEq K] (pk : TxRecord → K) (env : SeasonEnv)
        (store0 : List TxRecord) (lid : String) (res : SeasonResult),
        process_season pk env store0 lid = some res →
        res.attempts = (List.range' 1 WEEKS_TO_FETCH).filter
          (fun w => !(fetch_transactions (env.weekResp w)).isEmpty)
        ∧ ∀ meta, env.meta = some meta → res.prevId = meta.previous_league_id)
    ∧ (∀ {K : Type} [DecidableEq K] (pk : TxRecord → K) (benv : BackfillEnv)
        (f : String → Nat → Bool) (fuel : Nat) (start : String)
        (store1 store2 : List TxRecord),
        (mainWalk pk { benv with dbFails := f } fuel start store1).1 =
          (mainWalk pk benv fuel start store2).1) := by
  refine ⟨fun store => rfl, fun pk fails store => rfl, ?_, ?_⟩
  · intro K instK pk env store0 lid res h
    constructor
    · cases hm : env.meta with
      | none =>
        have : process_season pk env store0 lid = none := by
          rw [process_season_eq_none_iff]
          exact hm
        rw [this] at h
        cases h
      | some meta =>
        unfold process_season at h
        rw [hm] at h
        have hres := Option.some.inj h
        rw [← hres]
        exact seasonLoop_attempts pk env lid meta.season (List.range' 1 WEEKS_TO_FETCH) _
    · intro meta hm
      exact process_season_prevId pk env store0 lid res meta h hm
  · intro K instK pk benv f fuel start store1 store2
    exact mainWalk_visits_of_leagues_eq pk pk benv { benv with dbFails := f }
      rfl fuel start store1 store2

/-- C5 witness: empty input is a no-op for both persisters; on the concrete
chain environment no week has data, so no upsert is attempted and the
previous-league id is still returned; an always-failing store leaves the
walk unchanged. -/
theorem batch_persister_isolation_witness :
    upsert_ktc_values [noRankRec] [] = [noRankRec]
    ∧ upsert_batch pkId true [] [] = ([], false, false)
    ∧ emptySeasonRes.attempts = (List.range' 1 WEEKS_TO_FETCH).filter
        (fun w => !(fetch_transactions ((seasonEnvFor envABC "A").weekResp w)).isEmpty)
    ∧ (mainWalk pkId { envABC with dbFails := fun _ _ => true } 5 "A" []).1 =
        (mainWalk pkId envABC 5 "A" []).1 :=
  ⟨batch_persister_isolation.1 [noRankRec],
   batch_persister_isolation.2.1 pkId true [],
   (batch_persister_isolation.2.2.1 pkId (seasonEnvFor envABC "A") [] "A"
      emptySeasonRes (by decide)).1,
   batch_persister_isolation.2.2.2 pkId envABC (fun _ _ => true) 5 "A" [] []⟩

/-- Adding fuel beyond a chain-length measure never changes the walk. -/
theorem mainWalk_fuel_add {K : Type} [DecidableEq K] (pk : TxRecord → K)
    (benv : BackfillEnv) (μ : String → Nat)
    (hdec : ∀ cur meta p, benv.leagues cur = some meta →
      meta.previous_league_id = some p → ¬(p = "0" ∨ p = "") → μ p < μ cur) :
    ∀ (fuel k : Nat) (start : String) (store : List TxRecord), μ start < fuel →
      mainWalk pk benv fuel start store = mainWalk pk benv (fuel + k) start store := by
  intro fuel
  induction fuel with
  | zero => intro k start store h; exact absurd h (Nat.not_lt_zero _)
  | succ n ih =>
    intro k start store h
    have hsucc : n + 1 + k = (n + k) + 1 := by omega
    rw [hsucc]
    simp only [mainWalk]
    by_cases hc : start = ""
    · rw [if_pos hc, if_pos hc]
    · rw [if_neg hc, if_neg hc]
      cases hp : process_season pk (seasonEnvFor benv start) store start with
      | none => rfl
      | some res =>
        dsimp only
        cases hprev : res.prevId with
        | none => rfl
        | some p =>
          dsimp only
          by_cases hstop : p = "0" ∨ p = ""
          · rw [if_pos hstop, if_pos hstop]
          · rw [if_neg hstop, if_neg hstop]
            have hmeta : ∃ meta, benv.leagues start = some meta := by
              cases hm : benv.leagues start with
              | none =>
                have : process_season pk (seasonEnvFor benv start) store start = none := by
                  rw [process_season_eq_none_iff]
                  exact hm
                rw [this] at hp
                cases hp
              | some m => exact ⟨m, rfl⟩
            obtain ⟨meta, hm⟩ := hmeta
            have hp2 : meta.previous_league_id = some p :=
              (process_season_prevId pk (seasonEnvFor benv start) store start
                res meta hp hm).symm.trans hprev
            have hμ : μ p < μ start := hdec start meta p hm hp2 hstop
            have hn : μ p < n := by omega
            rw [ih k p res.store hn]

/-- The chain measure for `envABC`: every followed predecessor reference
strictly decreases it. -/
theorem muABC_decreasing :
    ∀ cur meta p, envABC.leagues cur = some meta →
      meta.previous_league_id = some p → ¬(p = "0" ∨ p = "") →
      muABC p < muABC cur := by
  intro cur meta p h1 h2 h3
  by_cases hA : cur = "A"
  · subst hA
    have h1' : some ({ season := some "2024", previous_league_id := some "B", name := some "League" } : LeagueMeta) = some meta := h1
    rw [← Option.some.inj h1'] at h2
    have h2' : some "B" = some p := h2
    rw [← Option.some.inj h2']
    decide
  · by_cases hB : cur = "B"
    · subst hB
      have h1' : some ({ season := some "2023", previous_league_id := some "C", name := some "League" } : LeagueMeta) = some meta := h1
      rw [← Option.some.inj h1'] at h2
      have h2' : some "C" = some p := h2
      rw [← Option.some.inj h2']
      decide
    · by_cases hC : cur = "C"
      · subst hC
        have h1' : some ({ season := some "2022", previous_league_id := none, name := some "League" } : LeagueMeta) = some meta := h1
        rw [← Option.some.inj h1'] at h2
        have h2' : (none : Option String) = some p := h2
        cases h2'
      · have hnone : envABC.leagues cur = none := by
          simp only [envABC]
          rw [if_neg hA, if_neg hB, if_neg hC]
        rw [hnone] at h1
        cases h1

/-- C2: the chained walk is fuel-stable (hence terminating) whenever each
followed predecessor reference strictly decreases some measure - the
spec's "different, earlier identifier" condition - and on the concrete
chain `A -> B -> C -> (none)` it visits exactly `A, B, C`, fetching
nothing past `C`, stopping when the reference is absent or the sentinel
`"0"`. -/
theorem chained_walk_terminates :
    (∀ {K : Type} [DecidableEq K] (pk : TxRecord → K) (benv : BackfillEnv)
      (μ : String → Nat),
      (∀ cur meta p, benv.leagues cur = some meta →
        meta.previous_league_id = some p → ¬(p = "0" ∨ p = "") → μ p < μ cur) →
      ∀ (fuel fuel2 : Nat) (start : String) (store : List TxRecord),
        μ start < fuel → μ start < fuel2 →
        mainWalk pk benv fuel start store = mainWalk pk benv fuel2 start store)
    ∧ (∀ fuel, 3 ≤ fuel → (mainWalk pkId envABC fuel "A" []).1 = ["A", "B", "C"]) := by
  have hext : ∀ {K : Type} [DecidableEq K] (pk : TxRecord → K)
      (benv : BackfillEnv) (μ : String → Nat),
      (∀ cur meta p, benv.leagues cur = some meta →
        meta.previous_league_id = some p → ¬(p = "0" ∨ p = "") → μ p < μ cur) →
      ∀ (fuel fuel2 : Nat) (start : String) (store : List TxRecord),
        μ start < fuel → μ start < fuel2 →
        mainWalk pk benv fuel start store = mainWalk pk benv fuel2 start store := by
    intro K instK pk benv μ hdec fuel fuel2 start store h1 h2
    rcases Nat.le_total fuel fuel2 with hle | hle
    · have hadd := mainWalk_fuel_add pk benv μ hdec fuel (fuel2 - fuel) start store h1
      have heq : fuel + (fuel2 - fuel) = fuel2 := by omega
      rw [heq] at hadd
      exact hadd
    · have hadd := mainWalk_fuel_add pk benv μ hdec fuel2 (fuel - fuel2) start store h2
      have heq : fuel2 + (fuel - fuel2) = fuel := by omega
      rw [heq] at hadd
      exact hadd.symm
  refine ⟨hext, ?_⟩
  intro fuel hf
  have hμ : muABC "A" < fuel := by
    have : muABC "A" = 2 := rfl
    omega
  have h3 : muABC "A" < 3 := by decide
  rw [hext pkId envABC muABC muABC_decreasing fuel 3 "A" [] hμ h3]
  decide

/-! ## Last-write-wins upsert lemmas (towards C3) -/

theorem lastWith_cons (k : Row → Key) (κ : Key) (r : Row) (rs : List Row) (d : Row) :
    lastWith k κ (r :: rs) d = lastWith k κ rs (if k r = κ then r else d) := rfl

/-- When some element of `rs` carries the key, the seed is irrelevant. -/
theorem lastWith_seed_irrel (k : Row → Key) {κ : Key} {rs : List Row}
    (h : ∃ r ∈ rs, k r = κ) :
    ∀ d d', lastWith k κ rs d = lastWith k κ rs d' := by
  induction rs with
  | nil => obtain ⟨r, hr, -⟩ := h; cases hr
  | cons r rs ih =>
    intro d d'
    rw [lastWith_cons, lastWith_cons]
    by_cases hr : k r = κ
    · rw [if_pos hr, if_pos hr]
    · rw [if_neg hr, if_neg hr]
      obtain ⟨r2, hr2, hk2⟩ := h
      rcases List.mem_cons.mp hr2 with rfl | hmem
      · exact absurd hk2 hr
      · exact ih ⟨r2, hmem, hk2⟩ d d'

/-- When no element of `rs` carries the key, the seed survives. -/
theorem lastWith_of_not_mem (k : Row → Key) (κ : Key) (rs : List Row) (d : Row) :
    (∀ r ∈ rs, k r ≠ κ) → lastWith k κ rs d = d := by
  induction rs with
  | nil => intro _; rfl
  | cons r rs ih =>
    intro h
    rw [lastWith_cons, if_neg (h r (List.mem_cons_self r rs))]
    exact ih (fun x hx => h x (List.mem_cons_of_mem r hx))

theorem upsertOne_of_any (k : Row → Key) {s : List Row} {r : Row}
    (h : s.any (fun x => k x = k r) = true) :
    upsertOne k s r = s.map (fun x => if k x = k r then r else x) := by
  unfold upsertOne
  rw [if_pos h]

theorem upsertOne_of_not_any (k : Row → Key) {s : List Row} {r : Row}
    (h : ¬s.any (fun x => k x = k r) = true) :
    upsertOne k s r = s ++ [r] := by
  unfold upsertOne
  rw [if_neg h]

/-- After upserting `r`, its key is present. -/
theorem any_upsertOne_self (k : Row → Key) (s : List Row) (r : Row) :
    (upsertOne k s r).any (fun x => k x = k r) = true := by
  by_cases h : s.any (fun x => k x = k r) = true
  · rw [upsertOne_of_any k h]
    obtain ⟨x, hx, hkx⟩ := List.any_eq_true.mp h
    have hkx' : k x = k r := by simpa using hkx
    refine List.any_eq_true.mpr
      ⟨(if k x = k r then r else x), List.mem_map.mpr ⟨x, hx, rfl⟩, ?_⟩
    rw [if_pos hkx']
    simp
  · rw [upsertOne_of_not_any k h]
    exact List.any_eq_true.mpr
      ⟨r, List.mem_append.mpr (Or.inr (List.mem_singleton.mpr rfl)), by simp⟩

/-- Upserting never removes a key. -/
theorem any_upsertOne_mono (k : Row → Key) {s : List Row} {κ : Key} (r : Row)
    (h : s.any (fun x => k x = κ) = true) :
    (upsertOne k s r).any (fun x => k x = κ) = true := by
  obtain ⟨x, hx, hkx⟩ := List.any_eq_true.mp h
  have hkx' : k x = κ := by simpa using hkx
  by_cases hb : s.any (fun x => k x = k r) = true
  · rw [upsertOne_of_any k hb]
    refine List.any_eq_true.mpr
      ⟨(if k x = k r then r else x), List.mem_map.mpr ⟨x, hx, rfl⟩, ?_⟩
    by_cases hxr : k x = k r
    · rw [if_pos hxr]
      simpa using hxr.symm.trans hkx'
    · rw [if_neg hxr]
      simpa using hkx'
  · rw [upsertOne_of_not_any k hb]
    exact List.any_eq_true.mpr ⟨x, List.mem_append.mpr (Or.inl hx), by simpa using hkx'⟩

theorem any_upsertAll_mono (k : Row → Key) (κ : Key) :
    ∀ (rs s : List Row), s.any (fun x => k x = κ) = true →
      (upsertAll k s rs).any (fun x => k x = κ) = true := by
  intro rs
  induction rs with
  | nil => intro s h; exact h
  | cons r rs ih =>
    intro s h
    show (upsertAll k (upsertOne k s r) rs).any _ = true
    exact ih _ (any_upsertOne_mono k r h)

/-- Every key written by the batch is present afterwards. -/
theorem any_upsertAll_of_mem (k : Row → Key) :
    ∀ (rs s : List Row) (r : Row), r ∈ rs →
      (upsertAll k s rs).any (fun x => k x = k r) = true := by
  intro rs
  induction rs with
  | nil => intro s r hr; cases hr
  | cons a rs ih =>
    intro s r hr
    rcases List.mem_cons.mp hr with rfl | hmem
    · show (upsertAll k (upsertOne k s r) rs).any _ = true
      exact any_upsertAll_mono k (k r) rs _ (any_upsertOne_self k s r)
    · exact ih _ r hmem

/-- A row of `upsertOne k s r` carrying `r`'s key is `r` itself. -/
theorem mem_upsertOne_eq_of_key (k : Row → Key) (s : List Row) (r y : Row)
    (hy : y ∈ upsertOne k s r) (hk : k y = k r) : y = r := by
  unfold upsertOne at hy
  by_cases h : s.any (fun x => k x = k r) = true
  · rw [if_pos h] at hy
    obtain ⟨x, hx, hxy⟩ := List.mem_map.mp hy
    by_cases hxr : k x = k r
    · rw [if_pos hxr] at hxy
      exact hxy.symm
    · rw [if_neg hxr] at hxy
      rw [← hxy] at hk
      exact absurd hk hxr
  · rw [if_neg h] at hy
    rcases List.mem_append.mp hy with hs | hr1
    · exact absurd (List.any_eq_true.mpr ⟨y, hs, by simpa using hk⟩) h
    · simpa using hr1

/-- Rows whose key the batch never writes pass through untouched. -/
theorem mem_upsertAll_of_no_write (k : Row → Key) (κ : Key) :
    ∀ (rs : List Row), (∀ r ∈ rs, k r ≠ κ) →
      ∀ (s : List Row) (y : Row), y ∈ upsertAll k s rs → k y = κ → y ∈ s := by
  intro rs
  induction rs with
  | nil => intro _ s y hy _; exact hy
  | cons r rs ih =>
    intro h s y hy hk
    have hy' : y ∈ upsertOne k s r :=
      ih (fun x hx => h x (List.mem_cons_of_mem r hx)) _ y hy hk
    unfold upsertOne at hy'
    by_cases hb : s.any (fun x => k x = k r) = true
    · rw [if_pos hb] at hy'
      obtain ⟨x, hx, hxy⟩ := List.mem_map.mp hy'
      by_cases hxr : k x = k r
      · rw [if_pos hxr] at hxy
        have : k r = κ := by rw [hxy]; exact hk
        exact absurd this (h r (List.mem_cons_self r rs))
      · rw [if_neg hxr] at hxy
        rw [← hxy]
        exact hx
    · rw [if_neg hb] at hy'
      rcases List.mem_append.mp hy' with hs | hr1
      · exact hs
      · have hyr : y = r := by simpa using hr1
        rw [hyr] at hk
        exact absurd hk (h r (List.mem_cons_self r rs))

/-- After a batch is applied, every stored row already equals the batch's
last write for its key. -/
theorem upsertAll_saturated (k : Row → Key) :
    ∀ (rs s : List Row) (y : Row), y ∈ upsertAll k s rs →
      lastWith k (k y) rs y = y := by
  intro rs
  induction rs with
  | nil => intro s y _; rfl
  | cons r rs ih =>
    intro s y hy
    have hy' : y ∈ upsertAll k (upsertOne k s r) rs := hy
    have ihy : lastWith k (k y) rs y = y := ih _ y hy'
    rw [lastWith_cons]
    by_cases hr : k r = k y
    · rw [if_pos hr]
      by_cases hex : ∃ r2 ∈ rs, k r2 = k y
      · rw [lastWith_seed_irrel k hex r y]
        exact ihy
      · push_neg at hex
        rw [lastWith_of_not_mem k (k y) rs r hex]
        have hyO : y ∈ upsertOne k s r :=
          mem_upsertAll_of_no_write k (k y) rs hex _ y hy' rfl
        exact (mem_upsertOne_eq_of_key k s r y hyO hr.symm).symm
    · rw [if_neg hr]
      exact ihy

/-- Two key-related lists have the same keys present. -/
theorem forall₂_key_any {R : Row → Row → Prop} (k : Row → Key)
    (hk : ∀ x y, R x y → k x = k y) :
    ∀ {u t : List Row}, List.Forall₂ R u t → ∀ κ,
      u.any (fun x => k x = κ) = t.any (fun x => k x = κ) := by
  intro u t hF
  induction hF with
  | nil => intro _; rfl
  | cons h _ ih =>
    intro κ
    simp only [List.any_cons]
    rw [hk _ _ h, ih κ]

/-- One step of the restoration invariant. -/
theorem restore_rel_step (k : Row → Key) (r : Row) (rest' : List Row) (x y : Row)
    (h : k x = k y ∧ lastWith k (k y) (r :: rest') y = y ∧
      (x = y ∨ ∃ r2 ∈ r :: rest', k r2 = k y)) :
    k (if k x = k r then r else x) = k y ∧ lastWith k (k y) rest' y = y ∧
      ((if k x = k r then r else x) = y ∨ ∃ r2 ∈ rest', k r2 = k y) := by
  obtain ⟨h1, h2, h3⟩ := h
  rw [lastWith_cons] at h2
  by_cases hr : k r = k y
  · rw [if_pos hr] at h2
    have hsubst : (if k x = k r then r else x) = r := if_pos (h1.trans hr.symm)
    rw [hsubst]
    by_cases hex : ∃ r2 ∈ rest', k r2 = k y
    · refine ⟨hr, ?_, Or.inr hex⟩
      rw [lastWith_seed_irrel k hex y r]
      exact h2
    · push_neg at hex
      have hry : r = y := by
        rw [lastWith_of_not_mem k (k y) rest' r hex] at h2
        exact h2
      exact ⟨hr, lastWith_of_not_mem k (k y) rest' y hex, Or.inl hry⟩
  · rw [if_neg hr] at h2
    have hxr : ¬k x = k r := fun hc => hr ((hc.symm.trans h1))
    rw [if_neg hxr]
    refine ⟨h1, h2, ?_⟩
    rcases h3 with rfl | ⟨r2, hr2, hk2⟩
    · exact Or.inl rfl
    · rcases List.mem_cons.mp hr2 with rfl | hmem
      · exact absurd hk2 hr
      · exact Or.inr ⟨r2, hmem, hk2⟩

/-- Replaying a batch against a state whose rows already all equal the
batch's last writes (and which holds every written key) changes nothing. -/
theorem upsertAll_restore (k : Row → Key) :
    ∀ (rest : List Row) (u t : List Row),
      (∀ r ∈ rest, t.any (fun x => k x = k r) = true) →
      List.Forall₂ (fun x y => k x = k y ∧ lastWith k (k y) rest y = y ∧
        (x = y ∨ ∃ r ∈ rest, k r = k y)) u t →
      upsertAll k u rest = t := by
  intro rest
  induction rest with
  | nil =>
    intro u t _ hF
    show u = t
    induction hF with
    | nil => rfl
    | cons hxy _ ih =>
      obtain ⟨-, -, h3⟩ := hxy
      rcases h3 with rfl | ⟨r, hr, -⟩
      · rw [ih (fun r hr => absurd hr (List.not_mem_nil r))]
      · cases hr
  | cons r rest' ih =>
    intro u t hkeys hF
    have hanyT : t.any (fun x => k x = k r) = true :=
      hkeys r (List.mem_cons_self r rest')
    have hanyU : u.any (fun x => k x = k r) = true := by
      rw [forall₂_key_any k (fun x y h => h.1) hF (k r)]
      exact hanyT
    show upsertAll k (upsertOne k u r) rest' = t
    rw [upsertOne_of_any k hanyU]
    refine ih _ t (fun r2 hr2 => hkeys r2 (List.mem_cons_of_mem r hr2)) ?_
    rw [List.forall₂_map_left_iff]
    exact List.Forall₂.imp (fun x y hxy => restore_rel_step k r rest' x y hxy) hF

/-- Applying the same batch twice is the same as applying it once. -/
theorem upsertAll_idem (k : Row → Key) (s rs : List Row) :
    upsertAll k (upsertAll k s rs) rs = upsertAll k s rs :=
  upsertAll_restore k rs _ _
    (fun r hr => any_upsertAll_of_mem k rs s r hr)
    (List.forall₂_same.mpr
      (fun y hy => ⟨rfl, upsertAll_saturated k rs s y hy, Or.inl rfl⟩))

/-- `upsertOne` replaces in place or appends a fresh key. -/
theorem map_key_upsertOne (k : Row → Key) (s : List Row) (r : Row) :
    (upsertOne k s r).map k =
      if s.any (fun x => k x = k r) = true then s.map k
      else s.map k ++ [k r] := by
  unfold upsertOne
  by_cases h : s.any (fun x => k x = k r) = true
  · rw [if_pos h, if_pos h, List.map_map]
    have hfun : (k ∘ fun x => if k x = k r then r else x) = k := by
      funext x
      by_cases hx : k x = k r
      · simp [hx]
      · simp [hx]
    rw [hfun]
  · rw [if_neg h, if_neg h, List.map_append]
    rfl

/-- Upserting can never create a duplicate key. -/
theorem nodup_key_upsertOne (k : Row → Key) (s : List Row) (r : Row)
    (h : (s.map k).Nodup) : ((upsertOne k s r).map k).Nodup := by
  rw [map_key_upsertOne]
  by_cases hb : s.any (fun x => k x = k r) = true
  · rw [if_pos hb]
    exact h
  · rw [if_neg hb, List.nodup_append]
    refine ⟨h, List.nodup_singleton _, ?_⟩
    intro a ha ha2
    have haeq : a = k r := by simpa using ha2
    subst haeq
    obtain ⟨x, hx, hkx⟩ := List.mem_map.mp ha
    exact hb (List.any_eq_true.mpr ⟨x, hx, by simpa using hkx⟩)

theorem nodup_key_upsertAll (k : Row → Key) :
    ∀ (rs s : List Row), (s.map k).Nodup → ((upsertAll k s rs).map k).Nodup := by
  intro rs
  induction rs with
  | nil => intro s h; exact h
  | cons r rs ih =>
    intro s h
    exact ih _ (nodup_key_upsertOne k s r h)

/-- C3: persisting the same records twice equals persisting them once (for
the ranking upsert on its natural key, and for the transactions upsert
whatever primary key the table uses); a key-unique store stays key-unique
(overwrite, never duplicate); and every stored row equals the batch's last
write for its natural key. -/
theorem upsert_idempotent_lastwrite :
    (∀ (store rows : List KtcRecord),
      upsert_ktc_values (upsert_ktc_values store rows) rows =
        upsert_ktc_values store rows)
    ∧ (∀ (store rows : List KtcRecord), (store.map ktcKey).Nodup →
        ((upsert_ktc_values store rows).map ktcKey).Nodup)
    ∧ (∀ (store rows : List KtcRecord) (y : KtcRecord),
        y ∈ upsert_ktc_values store rows → lastWith ktcKey (ktcKey y) rows y = y)
    ∧ (∀ {K : Type} [DecidableEq K] (pk : TxRecord → K)
        (store rows : List TxRecord),
        upsertAll pk (upsertAll pk store rows) rows = upsertAll pk store rows) := by
  refine ⟨?_, ?_, ?_, ?_⟩
  · intro store rows
    by_cases h : rows = []
    · simp [upsert_ktc_values, h]
    · simp only [upsert_ktc_values, if_neg h]
      exact upsertAll_idem ktcKey store rows
  · intro store rows h
    by_cases hr : rows = []
    · simp only [upsert_ktc_values, if_pos hr]
      exact h
    · simp only [upsert_ktc_values, if_neg hr]
      exact nodup_key_upsertAll ktcKey rows store h
  · intro store rows y hy
    by_cases hr : rows = []
    · subst hr
      rfl
    · simp only [upsert_ktc_values, if_neg hr] at hy
      exact upsertAll_saturated ktcKey rows store y hy
  · intro K instK pk store rows
    exact upsertAll_idem pk store rows

/-- C3 witness: re-upserting a concrete batch is a no-op and the store
stays key-unique. -/
theorem upsert_idempotent_lastwrite_witness :
    upsert_ktc_values (upsert_ktc_values [] [noRankRec]) [noRankRec] =
      upsert_ktc_values [] [noRankRec]
    ∧ ((upsert_ktc_values [] [noRankRec, negRankRec]).map ktcKey).Nodup :=
  ⟨upsert_idempotent_lastwrite.1 [] [noRankRec],
   upsert_idempotent_lastwrite.2.1 [] [noRankRec, negRankRec] (by decide)⟩

/-- C2 witness: the concrete chain walk at two fuel values. -/
theorem chained_walk_terminates_witness :
    (mainWalk pkId envABC 5 "A" []).1 = ["A", "B", "C"]
    ∧ mainWalk pkId envABC 7 "B" [] = mainWalk pkId envABC 9 "B" [] :=
  ⟨chained_walk_terminates.2 5 (by decide),
   chained_walk_terminates.1 pkId envABC muABC muABC_decreasing 7 9 "B" []
     (by decide) (by decide)⟩

end DynastyHub
